import Mathlib

/-!
Verification of the crj-engine client core: capture engine (recorder.js),
session controller (ui controllers), API client (api-client.js), and the
visualization renderer (NotationRenderer).  Each definition is a shallow
embedding of the corresponding JavaScript source.  Frequencies, timestamps
and confidences are modelled as rationals; machine floats in the source
carry exact decimal literals only, so rational arithmetic is faithful for
the properties proved here.
-/

/-! ## JavaScript value model (for the api-client option handling)

The api client reads option fields with the idiom value-or-default using
the JS logical-or operator, which substitutes the default exactly when the
value is falsy: undefined, the number 0, the empty string, or false.
-/

/-- A JavaScript value as it occurs in the option bundles of api-client.js:
a number, a string, a boolean, or undefined for an absent field. -/
inductive JsVal where
  | undefined : JsVal
  | num : ℚ → JsVal
  | str : String → JsVal
  | bool : Bool → JsVal
deriving DecidableEq

/-- JS truthiness for the values that occur in the option bundle:
undefined and false are falsy, a number is falsy exactly when it is 0,
a string is falsy exactly when it is empty. -/
def truthy : JsVal → Bool
  | .undefined => false
  | .num q => decide (q ≠ 0)
  | .str s => decide (s ≠ "")
  | .bool b => b

/-- The JS expression v or-else d: returns v when v is truthy, d otherwise. -/
def jsOr (v d : JsVal) : JsVal := if truthy v then v else d

/-! ## api-client.js: CRJApi.analyze and CRJApi.analyzeFile form fields -/

/-- The options object passed to CRJApi.analyze / CRJApi.analyzeFile.
A field the caller did not set reads as undefined. -/
structure AnalyzeOptions where
  referenceSaHz : JsVal
  algorithm : JsVal
  script : JsVal
  toleranceCents : JsVal
  includeContour : JsVal
deriving DecidableEq

/-- The form fields appended to the outgoing analyze request. -/
structure AnalyzeForm where
  reference_sa_hz : JsVal
  algorithm : JsVal
  script : JsVal
  tolerance_cents : JsVal
  include_contour : JsVal
deriving DecidableEq

/-- Form assembly in CRJApi.analyze (api-client.js lines 14-18):
each field is the option value or-else its default. -/
def analyzeFormFields (o : AnalyzeOptions) : AnalyzeForm :=
  { reference_sa_hz := jsOr o.referenceSaHz (.num (26163/100))
    algorithm := jsOr o.algorithm (.str "pyin")
    script := jsOr o.script (.str "iast")
    tolerance_cents := jsOr o.toleranceCents (.num 40)
    include_contour := jsOr o.includeContour (.bool false) }

/-- Form assembly in CRJApi.analyzeFile (api-client.js lines 34-38);
textually the same option handling as analyze. -/
def analyzeFileFormFields (o : AnalyzeOptions) : AnalyzeForm :=
  { reference_sa_hz := jsOr o.referenceSaHz (.num (26163/100))
    algorithm := jsOr o.algorithm (.str "pyin")
    script := jsOr o.script (.str "iast")
    tolerance_cents := jsOr o.toleranceCents (.num 40)
    include_contour := jsOr o.includeContour (.bool false) }

/-! ## The two getOptions variants of the session controllers

The tabbed controller (unnamed part_001, lines 70-81) builds the option
bundle with includeContour set to true unconditionally; the legacy
controller (web/js/ui.js, lines 49-59) builds the same bundle without an
includeContour field, so reading that field yields undefined.  The
parseFloat results of the tonic inputs are taken as parameters since the
claims do not depend on numeric string parsing. -/

/-- getOptions of the tabbed controller.  saPresetParsed and
saCustomParsed stand for the parseFloat results of the two tonic inputs. -/
def getOptionsTabbed (saPresetValue : String) (saPresetParsed saCustomParsed : JsVal)
    (algorithmValue scriptValue : String) : AnalyzeOptions :=
  { referenceSaHz :=
      if saPresetValue = "custom" then jsOr saCustomParsed (.num (26163/100))
      else saPresetParsed
    algorithm := .str algorithmValue
    script := .str scriptValue
    toleranceCents := .undefined
    includeContour := .bool true }

/-- getOptions of the legacy controller in web/js/ui.js: identical except
that no includeContour field is set, so the field reads as undefined. -/
def getOptionsLegacy (saPresetValue : String) (saPresetParsed saCustomParsed : JsVal)
    (algorithmValue scriptValue : String) : AnalyzeOptions :=
  { referenceSaHz :=
      if saPresetValue = "custom" then jsOr saCustomParsed (.num (26163/100))
      else saPresetParsed
    algorithm := .str algorithmValue
    script := .str scriptValue
    toleranceCents := .undefined
    includeContour := .undefined }

/-! ## NotationRenderer.renderContour: pitch-contour geometry -/

/-- One frame of the pitch_contour time series. -/
structure Frame where
  timestamp_ms : ℚ
  frequency_hz : ℚ
  confidence : ℚ
deriving DecidableEq

/-- The voicing test of the bounds computation (part_000 line 159):
frequency_hz strictly positive and confidence strictly above 0.2. -/
def isVoiced (f : Frame) : Bool :=
  decide (0 < f.frequency_hz) && decide ((1/5 : ℚ) < f.confidence)

/-- The segment-break test of the two drawing passes (part_000 lines 211
and 232): frequency_hz at most 0, or confidence strictly below 0.2. -/
def isBreak (f : Frame) : Bool :=
  decide (f.frequency_hz ≤ 0) || decide (f.confidence < (1/5 : ℚ))

/-- The voiced frames used for the frequency-axis bounds (part_000 line 159). -/
def voicedFrames (contour : List Frame) : List Frame :=
  contour.filter isVoiced

/-- Minimum of a rational list, mirroring the JS Math.min spread call;
the empty case is unreachable in the source because of the voiced guard. -/
def listMinQ : List ℚ → ℚ
  | [] => 0
  | x :: xs => xs.foldl min x

/-- Maximum of a rational list, mirroring the JS Math.max spread call. -/
def listMaxQ : List ℚ → ℚ
  | [] => 0
  | x :: xs => xs.foldl max x

/-- Lower frequency bound fMin (part_000 line 163): min voiced frequency times 0.9. -/
def fMinVal (contour : List Frame) : ℚ :=
  listMinQ ((voicedFrames contour).map (fun f => f.frequency_hz)) * (9/10)

/-- Upper frequency bound fMax (part_000 line 164): max voiced frequency times 1.1. -/
def fMaxVal (contour : List Frame) : ℚ :=
  listMaxQ ((voicedFrames contour).map (fun f => f.frequency_hz)) * (11/10)

/-- Left time bound tMin (part_000 line 165): timestamp of the first frame. -/
def tMinVal : List Frame → ℚ
  | [] => 0
  | f :: _ => f.timestamp_ms

/-- Right time bound tMax (part_000 line 166): timestamp of the last frame. -/
def tMaxVal (contour : List Frame) : ℚ :=
  match contour.getLast? with
  | some f => f.timestamp_ms
  | none => 0

/-- The stroked-path walk of part_000 lines 208-224.  The accumulator is
the current open sub-path in reverse order; none models started = false.
A break frame ends the current sub-path; a non-break frame extends it
(lineTo) or opens a new one (moveTo).  The result lists the sub-paths of
the single stroked path, each as its frames in drawing order. -/
def strokeWalk : Option (List Frame) → List Frame → List (List Frame)
  | none, [] => []
  | some cur, [] => [cur.reverse]
  | none, f :: rest =>
      if isBreak f then strokeWalk none rest
      else strokeWalk (some [f]) rest
  | some cur, f :: rest =>
      if isBreak f then cur.reverse :: strokeWalk none rest
      else strokeWalk (some (f :: cur)) rest

/-- The sub-paths of the stroked pitch-contour path. -/
def strokeSubPaths (contour : List Frame) : List (List Frame) :=
  strokeWalk none contour

/-- The confidence-shading walk of part_000 lines 227-255.  Same break
rule; at each break the open region is closed down to the plot bottom and
filled immediately, and the final open region is filled at the end.  Each
filled shape is recorded as its frames in drawing order. -/
def fillWalk : Option (List Frame) → List Frame → List (List Frame)
  | none, [] => []
  | some cur, [] => [cur.reverse]
  | none, f :: rest =>
      if isBreak f then fillWalk none rest
      else fillWalk (some [f]) rest
  | some cur, f :: rest =>
      if isBreak f then cur.reverse :: fillWalk none rest
      else fillWalk (some (f :: cur)) rest

/-- The filled shapes of the confidence shading pass. -/
def fillShapes (contour : List Frame) : List (List Frame) :=
  fillWalk none contour

/-- Number of time-axis intervals, nTicks in part_000 line 261. -/
def nTicks : Nat := 6

/-- Number of frequency-axis intervals, nYTicks in part_000 line 276. -/
def nYTicks : Nat := 4

/-- The time values labelled on the time axis (part_000 lines 262-265):
the loop runs i = 0 .. nTicks inclusive. -/
def timeTickValues (contour : List Frame) : List ℚ :=
  (List.range (nTicks + 1)).map
    (fun i : ℕ => tMinVal contour + (tMaxVal contour - tMinVal contour) * ((i : ℚ) / (nTicks : ℚ)))

/-- The frequency values labelled on the frequency axis (part_000 lines
277-281): the loop runs i = 0 .. nYTicks inclusive. -/
def freqTickValues (contour : List Frame) : List ℚ :=
  (List.range (nYTicks + 1)).map
    (fun i : ℕ => fMinVal contour + (fMaxVal contour - fMinVal contour) * ((i : ℚ) / (nYTicks : ℚ)))

/-! ## recorder.js: AudioRecorder capture-session model

The recorder is modelled as a state record plus pure transition functions
for the pieces of AudioRecorder that touch resources: start (getUserMedia
acquisition, AudioContext creation, timer start), the timer tick handler,
stop, and the private cleanup.  JavaScript here is single threaded and the
interval is cleared synchronously inside stop, so a session is a sequence
of discrete events processed one at a time. -/

/-- Observable state of one AudioRecorder instance.  The counters record
how often the hardware track was stopped (releaseCalls), how often
getUserMedia succeeded (acquireCalls), how often an AudioContext was
opened and closed, and how often the onMaxReached callback ran. -/
structure RecorderState where
  streamAcquired : Bool
  audioCtxOpen : Bool
  hasRecorder : Bool
  recorderRecording : Bool
  timerActive : Bool
  chunks : Nat
  acquireCalls : Nat
  releaseCalls : Nat
  ctxOpenCalls : Nat
  ctxCloseCalls : Nat
  maxFired : Nat
deriving DecidableEq

/-- State right after the constructor (recorder.js lines 8-21). -/
def initRecorder : RecorderState :=
  { streamAcquired := false, audioCtxOpen := false, hasRecorder := false
    recorderRecording := false, timerActive := false, chunks := 0
    acquireCalls := 0, releaseCalls := 0, ctxOpenCalls := 0
    ctxCloseCalls := 0, maxFired := 0 }

/-- AudioRecorder cleanup (recorder.js lines 110-119): stop the stream
track and null the stream if held, close the AudioContext if open. -/
def cleanupFn (s : RecorderState) : RecorderState :=
  if s.streamAcquired then
    if s.audioCtxOpen then
      { s with streamAcquired := false, releaseCalls := s.releaseCalls + 1
               audioCtxOpen := false, ctxCloseCalls := s.ctxCloseCalls + 1 }
    else
      { s with streamAcquired := false, releaseCalls := s.releaseCalls + 1 }
  else
    if s.audioCtxOpen then
      { s with audioCtxOpen := false, ctxCloseCalls := s.ctxCloseCalls + 1 }
    else s

/-- AudioRecorder start succeeding (recorder.js lines 38-76): getUserMedia
grants the device, an AudioContext and analyser are created, the chunk
buffer is reset, the MediaRecorder starts, and the duration timer begins. -/
def startSuccessFn (s : RecorderState) : RecorderState :=
  { s with streamAcquired := true, acquireCalls := s.acquireCalls + 1
           audioCtxOpen := true, ctxOpenCalls := s.ctxOpenCalls + 1
           chunks := 0, hasRecorder := true, recorderRecording := true
           timerActive := true }

/-- AudioRecorder start failing at getUserMedia: the rejection propagates
before any assignment, so no resource is acquired and nothing changes. -/
def startFailureFn (s : RecorderState) : RecorderState := s

/-- AudioRecorder stop (recorder.js lines 87-108).  The interval is
cleared first; with no MediaRecorder or an inactive one the promise
resolves null after cleanup; otherwise the chunks become the clip, the
recorder stops, cleanup runs, and the clip is resolved. -/
def stopFn (s : RecorderState) : Option Nat × RecorderState :=
  if !s.hasRecorder || !s.recorderRecording then
    (none, cleanupFn { s with timerActive := false })
  else
    (some s.chunks, cleanupFn { s with timerActive := false, recorderRecording := false })

/-- The timer tick handler (recorder.js lines 65-73) at a given elapsed
time: while the interval is live it reports the duration and, once
elapsed reaches maxDurationMs, stops the recorder and invokes onMaxReached
exactly when stop resolved a clip.  A tick with the interval cleared does
not occur and is modelled as a no-op. -/
def tickFn (maxMs : Nat) (elapsed : Nat) (s : RecorderState) : RecorderState :=
  if s.timerActive then
    if maxMs ≤ elapsed then
      if (stopFn s).1.isSome then
        { (stopFn s).2 with maxFired := (stopFn s).2.maxFired + 1 }
      else (stopFn s).2
    else s
  else s

/-- Events a capture session can observe after a successful start. -/
inductive REvent where
  | tick : Nat → REvent
  | explicitStop : REvent
  | dataChunk : Nat → REvent
deriving DecidableEq

/-- One event step of a session. The dataChunk event is the ondataavailable
handler (recorder.js lines 58-60), buffering a chunk when its size is
positive. -/
def stepEvent (maxMs : Nat) (s : RecorderState) (e : REvent) : RecorderState :=
  match e with
  | .tick t => tickFn maxMs t s
  | .explicitStop => (stopFn s).2
  | .dataChunk n => if 0 < n then { s with chunks := s.chunks + 1 } else s

/-- Run a session forward over a list of events. -/
def runEvents (maxMs : Nat) (s : RecorderState) (es : List REvent) : RecorderState :=
  es.foldl (stepEvent maxMs) s

/-- All tick events of the list are strictly below the maximum duration. -/
def ticksBelow (maxMs : Nat) (es : List REvent) : Bool :=
  es.all (fun e =>
    match e with
    | .tick t => decide (t < maxMs)
    | _ => true)

/-! ## Session-controller file input (ui.js lines 223-236 and the tabbed
controller lines 298-311; the two handlers are textually identical). -/

/-- Controller states of the session state machine. -/
inductive UiState where
  | Idle | Recording | Processing | Results
deriving DecidableEq

/-- Outcome of one change event of the file input. -/
inductive FileOutcome where
  | noFile | rejectedTooLarge | submitted
deriving DecidableEq

/-- Result of the file-input change handler: the outcome, the controller
state it leaves behind, and how many network calls were issued. -/
structure FileChangeResult where
  outcome : FileOutcome
  state : UiState
  networkCalls : Nat
deriving DecidableEq

/-- The file-input change handler: with no file selected nothing happens;
a file larger than 10 * 1024 * 1024 bytes is rejected with the
file-too-large error (showError leaves the controller in Idle) before any
network request; otherwise runAnalysis moves to Processing and issues the
single analyze request. -/
def handleFileChange (fileSize : Option Nat) : FileChangeResult :=
  match fileSize with
  | none => { outcome := .noFile, state := .Idle, networkCalls := 0 }
  | some size =>
      if 10 * 1024 * 1024 < size then
        { outcome := .rejectedTooLarge, state := .Idle, networkCalls := 0 }
      else
        { outcome := .submitted, state := .Processing, networkCalls := 1 }

/-! ## NotationRenderer markup assembly (part_000 lines 61-120, 286-296) -/

/-- Escape of one character as performed by assigning textContent and
reading back innerHTML: ampersand, less-than and greater-than become
entities, everything else is unchanged. -/
def escChar (c : Char) : String :=
  if c = '&' then "&amp;"
  else if c = '<' then "&lt;"
  else if c = '>' then "&gt;"
  else String.mk [c]

/-- NotationRenderer._esc (part_000 lines 292-296). -/
def escHtml (s : String) : String :=
  String.join (s.toList.map escChar)

/-- JS String.prototype capitalization idiom of part_000 line 114:
first character upper-cased, rest unchanged; empty string stays empty. -/
def capitalizeJs (s : String) : String :=
  match s.toList with
  | [] => ""
  | c :: rest => String.mk [c.toUpper] ++ String.mk rest

/-- The gamaka color table GAMAKA_COLORS (part_000 lines 14-19). -/
def GAMAKA_COLORS : List (String × String) :=
  [("kampita", "#dbb978"), ("jaru", "#66bb6a"),
   ("sphuritham", "#e0a840"), ("steady", "#6b7394")]

/-- One raga candidate of the result document.  raga_name and raga_number
arrive from the analysis service as JSON text and are modelled as the
strings that JS concatenation inserts into the markup. -/
structure RagaCandidate where
  raga_name : String
  raga_number : String
  confidence : ℚ
  arohana : List String
  avarohana : List String
deriving DecidableEq

/-- The JS Array.join idiom with a one-space separator, as used for the
arohana and avarohana symbol sequences. -/
def joinSpace : List String → String
  | [] => ""
  | [a] => a
  | a :: rest => a ++ " " ++ joinSpace rest

/-- Rank class selection of renderRagas (part_000 lines 69-72). -/
def rankClass (i : Nat) : String :=
  if i = 0 then "raga-rank--1"
  else if i = 1 then "raga-rank--2"
  else if i = 2 then "raga-rank--3"
  else "raga-rank--default"

/-- JS Number.toFixed(0), rounding to the nearest whole number. -/
def toFixed0 (q : ℚ) : String := toString (round q)

/-- The innerHTML string built for one raga candidate by renderRagas
(part_000 lines 76-84): only raga_name passes through the escape; the
raga number and both symbol sequences are concatenated raw. -/
def ragaCandidateHtml (c : RagaCandidate) (i : Nat) : String :=
  let pct := toFixed0 (c.confidence * 100)
  "<span class=\"raga-rank " ++ rankClass i ++ "\">" ++ toString (i + 1) ++ "</span>" ++
  "<div><span class=\"raga-name\">" ++ escHtml c.raga_name ++ "</span>" ++
  " <span class=\"raga-number\">Melakarta " ++ c.raga_number ++ "</span></div>" ++
  "<div class=\"confidence-bar\"><div class=\"confidence-fill\" style=\"width:0%\"" ++
  " data-target-width=\"" ++ pct ++ "%\"></div></div>" ++
  "<span class=\"confidence-pct\">" ++ pct ++ "%</span>" ++
  "<div class=\"raga-scale\">↑ " ++ joinSpace c.arohana ++
  "  |  ↓ " ++ joinSpace c.avarohana ++ "</div>"

/-- The innerHTML string built for one gamaka distribution item by
renderGamakas (part_000 lines 110-116): the type label is concatenated
raw, capitalized but not escaped. -/
def gamakaItemHtml (gtype : String) (count : Nat) : String :=
  let color := ((GAMAKA_COLORS.lookup gtype).getD "#6b7394")
  "<span class=\"gamaka-dot\" style=\"background:" ++ color ++
  "; box-shadow: 0 0 8px " ++ color ++ "\"></span>" ++
  "<div class=\"gamaka-info\">" ++
  "<span class=\"gamaka-name\">" ++ capitalizeJs gtype ++ "</span>" ++
  "<span class=\"gamaka-count\">" ++ toString count ++ " segment" ++
  (if count ≠ 1 then "s" else "") ++ "</span>" ++
  "</div>"

/-- Whether needle occurs as a contiguous character block of hay. -/
def startsWithChars : List Char → List Char → Bool
  | _, [] => true
  | [], _ :: _ => false
  | h :: hs, n :: ns => h = n && startsWithChars hs ns

/-- Substring occurrence over the character lists. -/
def hasSubChars : List Char → List Char → Bool
  | [], n => n.isEmpty
  | h :: hs, n => startsWithChars (h :: hs) n || hasSubChars hs n

/-- Substring occurrence on strings. -/
def strHasSub (hay needle : String) : Bool :=
  hasSubChars hay.toList needle.toList

/-! ## Helper lemmas about the contour walks -/

/-- A voiced frame is never a break frame. -/
theorem isBreak_eq_false_of_isVoiced (f : Frame) (h : isVoiced f = true) :
    isBreak f = false := by
  unfold isVoiced at h
  rw [Bool.and_eq_true, decide_eq_true_iff, decide_eq_true_iff] at h
  unfold isBreak
  rw [Bool.or_eq_false_iff, decide_eq_false_iff_not, decide_eq_false_iff_not]
  exact ⟨not_le.mpr h.1, not_lt.mpr (le_of_lt h.2)⟩

/-- A frame whose confidence is below 0.2 is a break frame. -/
theorem isBreak_eq_true_of_lowconf (f : Frame) (h : f.confidence < (1/5 : ℚ)) :
    isBreak f = true := by
  unfold isBreak
  rw [Bool.or_eq_true]
  exact Or.inr (decide_eq_true h)

/-- The fill walk performs exactly the same grouping as the stroke walk. -/
theorem fillWalk_eq_strokeWalk (l : List Frame) :
    ∀ cur : Option (List Frame), fillWalk cur l = strokeWalk cur l := by
  induction l with
  | nil => intro cur; cases cur <;> rfl
  | cons f rest ih =>
      intro cur
      cases cur with
      | none =>
          simp only [fillWalk, strokeWalk]
          by_cases hb : isBreak f = true
          · simp [hb, ih]
          · simp [hb, ih]
      | some c =>
          simp only [fillWalk, strokeWalk]
          by_cases hb : isBreak f = true
          · simp [hb, ih]
          · simp [hb, ih]

/-- The confidence shading produces the same voiced groups as the stroke. -/
theorem fillShapes_eq_strokeSubPaths (contour : List Frame) :
    fillShapes contour = strokeSubPaths contour :=
  fillWalk_eq_strokeWalk contour none

/-- Unfolding equations for the stroke walk at a break frame and at a
voiced frame, with and without an open sub-path. -/
theorem strokeWalk_none_break (g : Frame) (rest : List Frame) (hbg : isBreak g = true) :
    strokeWalk none (g :: rest) = strokeWalk none rest := by
  simp [strokeWalk, hbg]

theorem strokeWalk_none_keep (g : Frame) (rest : List Frame) (hbg : isBreak g = false) :
    strokeWalk none (g :: rest) = strokeWalk (some [g]) rest := by
  simp [strokeWalk, hbg]

theorem strokeWalk_some_break (c : List Frame) (g : Frame) (rest : List Frame)
    (hbg : isBreak g = true) :
    strokeWalk (some c) (g :: rest) = c.reverse :: strokeWalk none rest := by
  simp [strokeWalk, hbg]

theorem strokeWalk_some_keep (c : List Frame) (g : Frame) (rest : List Frame)
    (hbg : isBreak g = false) :
    strokeWalk (some c) (g :: rest) = strokeWalk (some (g :: c)) rest := by
  simp [strokeWalk, hbg]

/-- Every non-break frame of the contour, and every frame of the open
sub-path, ends up inside one of the produced sub-paths. -/
theorem mem_flatten_strokeWalk (f : Frame) (hb : isBreak f = false) :
    ∀ (l : List Frame) (cur : Option (List Frame)),
      (f ∈ l ∨ ∃ p, cur = some p ∧ f ∈ p) →
      f ∈ (strokeWalk cur l).flatten := by
  intro l
  induction l with
  | nil =>
      intro cur h
      rcases h with h | ⟨p, hp, hfp⟩
      · simp at h
      · subst hp
        simp only [strokeWalk, List.flatten_cons, List.flatten_nil, List.append_nil]
        simpa using hfp
  | cons g rest ih =>
      intro cur h
      by_cases hbg : isBreak g = true
      · cases cur with
        | none =>
            rw [strokeWalk_none_break g rest hbg]
            rcases h with h | ⟨p, hp, hfp⟩
            · rcases List.mem_cons.mp h with hfg | hfr
              · subst hfg; rw [hb] at hbg; simp at hbg
              · exact ih none (Or.inl hfr)
            · cases hp
        | some c =>
            rw [strokeWalk_some_break c g rest hbg, List.flatten_cons]
            rcases h with h | ⟨p, hp, hfp⟩
            · rcases List.mem_cons.mp h with hfg | hfr
              · subst hfg; rw [hb] at hbg; simp at hbg
              · exact List.mem_append.mpr (Or.inr (ih none (Or.inl hfr)))
            · injection hp with hcp
              subst hcp
              exact List.mem_append.mpr (Or.inl (by simpa using hfp))
      · rw [Bool.not_eq_true] at hbg
        cases cur with
        | none =>
            rw [strokeWalk_none_keep g rest hbg]
            rcases h with h | ⟨p, hp, hfp⟩
            · rcases List.mem_cons.mp h with hfg | hfr
              · subst hfg
                exact ih (some [f]) (Or.inr ⟨[f], rfl, by simp⟩)
              · exact ih (some [g]) (Or.inl hfr)
            · cases hp
        | some c =>
            rw [strokeWalk_some_keep c g rest hbg]
            rcases h with h | ⟨p, hp, hfp⟩
            · rcases List.mem_cons.mp h with hfg | hfr
              · subst hfg
                exact ih (some (f :: c)) (Or.inr ⟨f :: c, rfl, by simp⟩)
              · exact ih (some (g :: c)) (Or.inl hfr)
            · injection hp with hcp
              subst hcp
              exact ih (some (g :: c)) (Or.inr ⟨g :: c, rfl, by simp [hfp]⟩)

/-- Propositional reading of the voicing test. -/
theorem isVoiced_iff (f : Frame) :
    isVoiced f = true ↔ 0 < f.frequency_hz ∧ (1/5 : ℚ) < f.confidence := by
  unfold isVoiced
  rw [Bool.and_eq_true, decide_eq_true_iff, decide_eq_true_iff]

/-- Propositional reading of the negated voicing test. -/
theorem isVoiced_eq_false_iff (f : Frame) :
    isVoiced f = false ↔ f.frequency_hz ≤ 0 ∨ f.confidence ≤ (1/5 : ℚ) := by
  rw [← Bool.not_eq_true, isVoiced_iff]
  push_neg
  constructor
  · intro h
    by_cases hf : 0 < f.frequency_hz
    · exact Or.inr (h hf)
    · exact Or.inl (not_lt.mp hf)
  · intro h hf
    rcases h with h | h
    · exact absurd hf (not_lt.mpr h)
    · exact h

/-! ## Claim C1 -/

/-- Claim C1: the contour-rendering operation walks frames in order and
starts a new disconnected sub-path at each unvoiced frame, never bridging
an unvoiced gap: for a 10-frame series whose frames 3-5 are unvoiced
(confidence below 0.2) and all others voiced, the stroked path consists of
exactly the two voiced runs as its two disjoint sub-paths, and the filled
region of exactly the same two disjoint shapes. -/
theorem c1_contour_unvoiced_gap_two_subpaths
    (f1 f2 f3 f4 f5 f6 f7 f8 f9 f10 : Frame)
    (h1 : isVoiced f1 = true) (h2 : isVoiced f2 = true)
    (h3 : f3.confidence < (1/5 : ℚ)) (h4 : f4.confidence < (1/5 : ℚ))
    (h5 : f5.confidence < (1/5 : ℚ))
    (h6 : isVoiced f6 = true) (h7 : isVoiced f7 = true) (h8 : isVoiced f8 = true)
    (h9 : isVoiced f9 = true) (h10 : isVoiced f10 = true) :
    strokeSubPaths [f1,f2,f3,f4,f5,f6,f7,f8,f9,f10] = [[f1,f2],[f6,f7,f8,f9,f10]] ∧
    fillShapes [f1,f2,f3,f4,f5,f6,f7,f8,f9,f10] = [[f1,f2],[f6,f7,f8,f9,f10]] ∧
    (strokeSubPaths [f1,f2,f3,f4,f5,f6,f7,f8,f9,f10]).length = 2 ∧
    (fillShapes [f1,f2,f3,f4,f5,f6,f7,f8,f9,f10]).length = 2 := by
  have b1 := isBreak_eq_false_of_isVoiced f1 h1
  have b2 := isBreak_eq_false_of_isVoiced f2 h2
  have b3 := isBreak_eq_true_of_lowconf f3 h3
  have b4 := isBreak_eq_true_of_lowconf f4 h4
  have b5 := isBreak_eq_true_of_lowconf f5 h5
  have b6 := isBreak_eq_false_of_isVoiced f6 h6
  have b7 := isBreak_eq_false_of_isVoiced f7 h7
  have b8 := isBreak_eq_false_of_isVoiced f8 h8
  have b9 := isBreak_eq_false_of_isVoiced f9 h9
  have b10 := isBreak_eq_false_of_isVoiced f10 h10
  have hs : strokeSubPaths [f1,f2,f3,f4,f5,f6,f7,f8,f9,f10] =
      [[f1,f2],[f6,f7,f8,f9,f10]] := by
    simp [strokeSubPaths, strokeWalk, b1, b2, b3, b4, b5, b6, b7, b8, b9, b10]
  have hf : fillShapes [f1,f2,f3,f4,f5,f6,f7,f8,f9,f10] =
      [[f1,f2],[f6,f7,f8,f9,f10]] := by
    rw [fillShapes_eq_strokeSubPaths]; exact hs
  exact ⟨hs, hf, by rw [hs]; rfl, by rw [hf]; rfl⟩

/-- Concrete 10-frame series with frames 3-5 unvoiced. -/
def exC1Contour : List Frame :=
  [⟨0, 220, 9/10⟩, ⟨100, 230, 9/10⟩, ⟨200, 0, 1/10⟩, ⟨300, 0, 1/10⟩,
   ⟨400, 0, 1/10⟩, ⟨500, 240, 8/10⟩, ⟨600, 250, 8/10⟩, ⟨700, 260, 8/10⟩,
   ⟨800, 270, 8/10⟩, ⟨900, 280, 8/10⟩]

/-- Witness for claim C1 at a concrete 10-frame series. -/
theorem c1_contour_unvoiced_gap_two_subpaths_witness :
    (strokeSubPaths exC1Contour).length = 2 ∧ (fillShapes exC1Contour).length = 2 := by
  have h := c1_contour_unvoiced_gap_two_subpaths
      ⟨0, 220, 9/10⟩ ⟨100, 230, 9/10⟩ ⟨200, 0, 1/10⟩ ⟨300, 0, 1/10⟩
      ⟨400, 0, 1/10⟩ ⟨500, 240, 8/10⟩ ⟨600, 250, 8/10⟩ ⟨700, 260, 8/10⟩
      ⟨800, 270, 8/10⟩ ⟨900, 280, 8/10⟩
      (by rw [isVoiced_iff]; constructor <;> norm_num)
      (by rw [isVoiced_iff]; constructor <;> norm_num)
      (by norm_num) (by norm_num) (by norm_num)
      (by rw [isVoiced_iff]; constructor <;> norm_num)
      (by rw [isVoiced_iff]; constructor <;> norm_num)
      (by rw [isVoiced_iff]; constructor <;> norm_num)
      (by rw [isVoiced_iff]; constructor <;> norm_num)
      (by rw [isVoiced_iff]; constructor <;> norm_num)
  exact ⟨h.2.2.1, h.2.2.2⟩

/-! ## Claim C9 -/

/-- Claim C9: a frame with positive frequency and confidence exactly 0.2
is excluded from the voiced set used for the frequency-axis bounds, yet is
not a break for the drawing passes: it is plotted as a point of the
current sub-path of the stroked path and of the filled region. -/
theorem c9_boundary_confidence_frame (c : List Frame) (f : Frame)
    (hmem : f ∈ c) (hfreq : 0 < f.frequency_hz) (hconf : f.confidence = (1/5 : ℚ)) :
    f ∉ voicedFrames c ∧ isBreak f = false ∧
    f ∈ (strokeSubPaths c).flatten ∧ f ∈ (fillShapes c).flatten := by
  have hd : decide ((1/5 : ℚ) < 1/5) = false := decide_eq_false (lt_irrefl _)
  have hv : isVoiced f = false := by
    unfold isVoiced
    rw [hconf, hd, Bool.and_false]
  have hb : isBreak f = false := by
    unfold isBreak
    rw [hconf, hd, Bool.or_false]
    exact decide_eq_false (not_le.mpr hfreq)
  refine ⟨?_, hb, ?_, ?_⟩
  · intro hmemv
    have hfil := List.mem_filter.mp hmemv
    rw [hv] at hfil
    simp at hfil
  · exact mem_flatten_strokeWalk f hb c none (Or.inl hmem)
  · rw [fillShapes_eq_strokeSubPaths]
    exact mem_flatten_strokeWalk f hb c none (Or.inl hmem)

/-- Concrete series for claim C9: the middle frame has confidence exactly
0.2 and a frequency far above both voiced frames. -/
def exC9Contour : List Frame :=
  [⟨0, 100, 9/10⟩, ⟨100, 500, 1/5⟩, ⟨200, 110, 9/10⟩]

/-- Witness for claim C9: the boundary frame is excluded from the voiced
set, appears in a stroked sub-path, and its frequency lies above the
computed upper frequency bound. -/
theorem c9_boundary_confidence_frame_witness :
    (⟨100, 500, 1/5⟩ : Frame) ∉ voicedFrames exC9Contour ∧
    (⟨100, 500, 1/5⟩ : Frame) ∈ (strokeSubPaths exC9Contour).flatten ∧
    fMaxVal exC9Contour < 500 := by
  have h := c9_boundary_confidence_frame exC9Contour ⟨100, 500, 1/5⟩
    (by simp [exC9Contour]) (by norm_num) rfl
  have hv0 : isVoiced (⟨0, 100, 9/10⟩ : Frame) = true := by
    rw [isVoiced_iff]; constructor <;> norm_num
  have hv1 : isVoiced (⟨100, 500, 1/5⟩ : Frame) = false := by
    rw [isVoiced_eq_false_iff]; right; norm_num
  have hv2 : isVoiced (⟨200, 110, 9/10⟩ : Frame) = true := by
    rw [isVoiced_iff]; constructor <;> norm_num
  have hvf : voicedFrames exC9Contour = [⟨0, 100, 9/10⟩, ⟨200, 110, 9/10⟩] := by
    unfold voicedFrames exC9Contour
    rw [List.filter_cons_of_pos hv0, List.filter_cons_of_neg (by rw [hv1]; exact Bool.false_ne_true),
        List.filter_cons_of_pos hv2, List.filter_nil]
  have hmax : fMaxVal exC9Contour < 500 := by
    rw [fMaxVal, hvf]
    norm_num [listMaxQ, List.foldl]
  exact ⟨h.1, h.2.2.1, hmax⟩

/-! ## Recorder invariant machinery (claims C2, C3, C8) -/

/-- Field bookkeeping of cleanup: it never touches the timer, the
recorder, the counters of acquisition, or maxFired; it always leaves the
stream released and the context closed, bumping the matching counters
exactly when something was held. -/
theorem cleanupFn_fields (s : RecorderState) :
    (cleanupFn s).timerActive = s.timerActive ∧
    (cleanupFn s).maxFired = s.maxFired ∧
    (cleanupFn s).recorderRecording = s.recorderRecording ∧
    (cleanupFn s).hasRecorder = s.hasRecorder ∧
    (cleanupFn s).acquireCalls = s.acquireCalls ∧
    (cleanupFn s).ctxOpenCalls = s.ctxOpenCalls ∧
    (cleanupFn s).chunks = s.chunks ∧
    (cleanupFn s).streamAcquired = false ∧
    (cleanupFn s).audioCtxOpen = false ∧
    (cleanupFn s).releaseCalls = s.releaseCalls + (if s.streamAcquired then 1 else 0) ∧
    (cleanupFn s).ctxCloseCalls = s.ctxCloseCalls + (if s.audioCtxOpen then 1 else 0) := by
  unfold cleanupFn
  split_ifs <;> simp_all

/-- The session invariant: counters balance against the held resources,
the timer, context, and recording flags travel with the stream, a live
recording implies a recorder object, and the auto-stop callback has fired
at most once, only with the timer already cleared. -/
def goodState (s : RecorderState) : Prop :=
  s.releaseCalls + (if s.streamAcquired then 1 else 0) = s.acquireCalls ∧
  s.ctxCloseCalls + (if s.audioCtxOpen then 1 else 0) = s.ctxOpenCalls ∧
  s.timerActive = s.streamAcquired ∧
  s.audioCtxOpen = s.streamAcquired ∧
  s.recorderRecording = s.streamAcquired ∧
  (s.recorderRecording = true → s.hasRecorder = true) ∧
  s.maxFired ≤ 1 ∧
  (s.maxFired = 1 → s.timerActive = false)

/-- A successful start establishes the invariant. -/
theorem goodState_startSuccess : goodState (startSuccessFn initRecorder) := by
  unfold goodState startSuccessFn initRecorder
  norm_num

/-- Stop clears the timer, ends the recording, releases the stream and
the context, leaves the counters balanced, and preserves maxFired,
hasRecorder and the invariant. -/
theorem stopFn_spec (s : RecorderState) (h : goodState s) :
    (stopFn s).2.timerActive = false ∧
    (stopFn s).2.streamAcquired = false ∧
    (stopFn s).2.audioCtxOpen = false ∧
    (stopFn s).2.recorderRecording = false ∧
    (stopFn s).2.maxFired = s.maxFired ∧
    goodState (stopFn s).2 := by
  obtain ⟨hacq, hctx, hts, hcs, hrs, hrh, hm1, hm2⟩ := h
  unfold stopFn cleanupFn goodState
  split_ifs <;> simp_all

/-- The first component of stop is none exactly when no recording is
active, mirroring the promise resolving null without a clip. -/
theorem stopFn_fst_none (s : RecorderState) (h : s.recorderRecording = false) :
    (stopFn s).1 = none := by
  unfold stopFn
  rw [h]
  simp

/-- One step preserves the session invariant. -/
theorem stepEvent_good (m : Nat) (s : RecorderState) (e : REvent) (h : goodState s) :
    goodState (stepEvent m s e) := by
  cases e with
  | tick t =>
      show goodState (tickFn m t s)
      unfold tickFn
      by_cases ht : s.timerActive = true
      · by_cases hmt : m ≤ t
        · obtain ⟨r1, r2, r3, r4, r5, r6⟩ := stopFn_spec s h
          by_cases hsome : (stopFn s).1.isSome = true
          · simp only [ht, hmt, hsome, if_true]
            obtain ⟨gacq, gctx, gts, gcs, grs, grh, gm1, gm2⟩ := r6
            have hm0 : s.maxFired = 0 := by
              obtain ⟨_, _, _, _, _, _, hm1s, hm2s⟩ := h
              by_contra hne
              have : s.maxFired = 1 := by omega
              rw [hm2s this] at ht
              exact Bool.false_ne_true ht
            refine ⟨by simpa using gacq, by simpa using gctx, by simpa using gts,
                    by simpa using gcs, by simpa using grs, by simpa using grh,
                    ?_, ?_⟩
            · simp only [RecorderState.maxFired]
              omega
            · intro _
              simp [r1]
          · simp only [ht, hmt, hsome, if_true, if_false]
            exact r6
        · simp only [ht, hmt, if_true, if_false]
          exact h
      · rw [Bool.not_eq_true] at ht
        simp only [ht, Bool.false_eq_true, if_false]
        exact h
  | explicitStop =>
      exact (stopFn_spec s h).2.2.2.2.2
  | dataChunk n =>
      show goodState (if 0 < n then { s with chunks := s.chunks + 1 } else s)
      by_cases hn : 0 < n
      · simp only [hn, if_true]
        obtain ⟨hacq, hctx, hts, hcs, hrs, hrh, hm1, hm2⟩ := h
        exact ⟨hacq, hctx, hts, hcs, hrs, hrh, hm1, hm2⟩
      · simp only [hn, if_false]
        exact h

/-- Any event sequence preserves the session invariant. -/
theorem runEvents_good (m : Nat) (es : List REvent) :
    ∀ s : RecorderState, goodState s → goodState (runEvents m s es) := by
  induction es with
  | nil => intro s h; exact h
  | cons e rest ih =>
      intro s h
      exact ih (stepEvent m s e) (stepEvent_good m s e h)

/-- A tick strictly before the maximum duration changes nothing. -/
theorem tickFn_eq_of_lt (m t : Nat) (s : RecorderState) (h : t < m) :
    tickFn m t s = s := by
  unfold tickFn
  have : ¬ m ≤ t := by omega
  split_ifs <;> rfl

/-- maxFired is untouched by stop. -/
theorem stopFn_maxFired (s : RecorderState) : (stopFn s).2.maxFired = s.maxFired := by
  unfold stopFn cleanupFn
  split_ifs <;> simp

/-- The timer is cleared by stop, whatever the state. -/
theorem stopFn_timer (s : RecorderState) : (stopFn s).2.timerActive = false := by
  unfold stopFn cleanupFn
  split_ifs <;> simp

/-- While every tick stays below the maximum duration, the auto-stop
counter never moves. -/
theorem runEvents_maxFired_of_ticksBelow (m : Nat) (es : List REvent) :
    ∀ s : RecorderState, ticksBelow m es = true →
      (runEvents m s es).maxFired = s.maxFired := by
  induction es with
  | nil => intro s _; rfl
  | cons e rest ih =>
      intro s hbelow
      rw [ticksBelow, List.all_cons, Bool.and_eq_true] at hbelow
      obtain ⟨he, hrest⟩ := hbelow
      cases e with
      | tick t =>
          have ht : t < m := by simpa using he
          show (runEvents m (tickFn m t s) rest).maxFired = s.maxFired
          rw [tickFn_eq_of_lt m t s ht]
          exact ih s hrest
      | explicitStop =>
          show (runEvents m (stopFn s).2 rest).maxFired = s.maxFired
          rw [ih (stopFn s).2 hrest, stopFn_maxFired]
      | dataChunk n =>
          show (runEvents m (if 0 < n then { s with chunks := s.chunks + 1 } else s) rest).maxFired
              = s.maxFired
          by_cases hn : 0 < n
          · simp only [hn, if_true]
            rw [ih _ hrest]
          · simp only [hn, if_false]
            exact ih s hrest

/-- Unfolding one event of a run. -/
theorem runEvents_cons (m : Nat) (s : RecorderState) (e : REvent) (es : List REvent) :
    runEvents m s (e :: es) = runEvents m (stepEvent m s e) es := rfl

/-- Appending one event to a run. -/
theorem runEvents_append_one (m : Nat) (s : RecorderState) (es : List REvent) (e : REvent) :
    runEvents m s (es ++ [e]) = stepEvent m (runEvents m s es) e := by
  unfold runEvents
  rw [List.foldl_append]
  rfl

/-- Once the timer is cleared it stays cleared and the auto-stop counter
never moves again. -/
theorem runEvents_maxFired_of_timerOff (m : Nat) (es : List REvent) :
    ∀ s : RecorderState, s.timerActive = false →
      (runEvents m s es).maxFired = s.maxFired ∧
      (runEvents m s es).timerActive = false := by
  induction es with
  | nil => intro s h; exact ⟨rfl, h⟩
  | cons e rest ih =>
      intro s hoff
      rw [runEvents_cons]
      cases e with
      | tick t =>
          have hstep : stepEvent m s (REvent.tick t) = s := by
            show tickFn m t s = s
            unfold tickFn
            rw [hoff]
            simp
          rw [hstep]
          exact ih s hoff
      | explicitStop =>
          obtain ⟨h1, h2⟩ := ih (stepEvent m s REvent.explicitStop) (stopFn_timer s)
          refine ⟨?_, h2⟩
          rw [h1]
          exact stopFn_maxFired s
      | dataChunk n =>
          by_cases hn : 0 < n
          · have hstep : stepEvent m s (REvent.dataChunk n) = { s with chunks := s.chunks + 1 } := by
              show (if 0 < n then _ else _) = _
              rw [if_pos hn]
            rw [hstep]
            exact ih { s with chunks := s.chunks + 1 } hoff
          · have hstep : stepEvent m s (REvent.dataChunk n) = s := by
              show (if 0 < n then _ else _) = _
              rw [if_neg hn]
            rw [hstep]
            exact ih s hoff

/-- A session has fully released its resources: the device-release count
matches the acquisition count, the context-close count matches the
context-open count, and neither handle is still held. -/
def sessionClosed (s : RecorderState) : Prop :=
  s.releaseCalls = s.acquireCalls ∧ s.ctxCloseCalls = s.ctxOpenCalls ∧
  s.streamAcquired = false ∧ s.audioCtxOpen = false

/-- Under the invariant, a state without the stream is fully released. -/
theorem sessionClosed_of_good (s : RecorderState) (h : goodState s)
    (hs : s.streamAcquired = false) : sessionClosed s := by
  obtain ⟨hacq, hctx, hts, hcs, hrs, hrh, hm1, hm2⟩ := h
  have hco : s.audioCtxOpen = false := hcs.trans hs
  rw [hs] at hacq
  rw [hco] at hctx
  simp only [Bool.false_eq_true, if_false] at hacq hctx
  exact ⟨by omega, by omega, hs, hco⟩

/-- A tick at or past the maximum duration leaves the session released. -/
theorem tickFn_closed (m t : Nat) (s : RecorderState) (h : goodState s) (hmt : m ≤ t) :
    sessionClosed (tickFn m t s) := by
  unfold tickFn
  by_cases ht : s.timerActive = true
  · obtain ⟨r1, r2, r3, r4, r5, r6⟩ := stopFn_spec s h
    have hc := sessionClosed_of_good _ r6 r2
    obtain ⟨a1, a2, a3, a4⟩ := hc
    by_cases hsome : (stopFn s).1.isSome = true
    · simp only [ht, hmt, hsome, if_true]
      exact ⟨a1, a2, a3, a4⟩
    · simp [ht, hmt, hsome]
      exact ⟨a1, a2, a3, a4⟩
  · rw [Bool.not_eq_true] at ht
    simp only [ht, Bool.false_eq_true, if_false]
    have hs : s.streamAcquired = false := (h.2.2.1).symm.trans ht
    exact sessionClosed_of_good s h hs

/-! ## Claim C2 -/

/-- Claim C2: for every capture session the hardware-device-release count
equals the acquire count and all audio-processing resources are closed on
every exit path: acquisition failure, explicit stop, and auto-stop at the
maximum duration. -/
theorem c2_release_balances_acquire :
    sessionClosed (startFailureFn initRecorder) ∧
    (∀ (m : Nat) (es : List REvent),
        sessionClosed (runEvents m (startSuccessFn initRecorder) (es ++ [REvent.explicitStop]))) ∧
    (∀ (m : Nat) (es : List REvent) (t : Nat), m ≤ t →
        sessionClosed (runEvents m (startSuccessFn initRecorder) (es ++ [REvent.tick t]))) := by
  refine ⟨⟨rfl, rfl, rfl, rfl⟩, ?_, ?_⟩
  · intro m es
    rw [runEvents_append_one]
    have hg := runEvents_good m es (startSuccessFn initRecorder) goodState_startSuccess
    obtain ⟨r1, r2, r3, r4, r5, r6⟩ := stopFn_spec _ hg
    exact sessionClosed_of_good _ r6 r2
  · intro m es t hmt
    rw [runEvents_append_one]
    have hg := runEvents_good m es (startSuccessFn initRecorder) goodState_startSuccess
    exact tickFn_closed m t _ hg hmt

/-- Witness for claim C2 on the auto-stop path at exactly the maximum. -/
theorem c2_release_balances_acquire_witness :
    sessionClosed (runEvents 30000 (startSuccessFn initRecorder) ([] ++ [REvent.tick 30000])) :=
  c2_release_balances_acquire.2.2 30000 [] 30000 (by decide)

/-! ## Claim C3 -/

/-- Claim C3: the auto-stop callback fires at most once per session, never
when every tick stays below the configured maximum, and never after an
explicit stop that happened with all earlier ticks below the maximum, even
if later ticks reach it. -/
theorem c3_autostop_at_most_once :
    (∀ (m : Nat) (es : List REvent),
        (runEvents m (startSuccessFn initRecorder) es).maxFired ≤ 1) ∧
    (∀ (m : Nat) (es : List REvent), ticksBelow m es = true →
        (runEvents m (startSuccessFn initRecorder) es).maxFired = 0) ∧
    (∀ (m : Nat) (pre post : List REvent), ticksBelow m pre = true →
        (runEvents m (startSuccessFn initRecorder)
            (pre ++ REvent.explicitStop :: post)).maxFired = 0) := by
  refine ⟨?_, ?_, ?_⟩
  · intro m es
    exact (runEvents_good m es _ goodState_startSuccess).2.2.2.2.2.2.1
  · intro m es hb
    rw [runEvents_maxFired_of_ticksBelow m es _ hb]
    rfl
  · intro m pre post hb
    have hsplit : runEvents m (startSuccessFn initRecorder) (pre ++ REvent.explicitStop :: post)
        = runEvents m
            (stepEvent m (runEvents m (startSuccessFn initRecorder) pre) REvent.explicitStop)
            post := by
      unfold runEvents
      rw [List.foldl_append]
      rfl
    rw [hsplit]
    obtain ⟨h1, h2⟩ := runEvents_maxFired_of_timerOff m post
      (stepEvent m (runEvents m (startSuccessFn initRecorder) pre) REvent.explicitStop)
      (stopFn_timer (runEvents m (startSuccessFn initRecorder) pre))
    rw [h1]
    show (stopFn (runEvents m (startSuccessFn initRecorder) pre)).2.maxFired = 0
    rw [stopFn_maxFired]
    rw [runEvents_maxFired_of_ticksBelow m pre _ hb]
    rfl

/-- Witness for claim C3: a session stopped explicitly after a tick 1 ms
before the maximum never fires auto-stop, even though a later tick reaches
the maximum. -/
theorem c3_autostop_at_most_once_witness :
    ticksBelow 30000 [REvent.tick 29999] = true ∧
    (runEvents 30000 (startSuccessFn initRecorder)
        ([REvent.tick 29999] ++ REvent.explicitStop :: [REvent.tick 30000])).maxFired = 0 :=
  ⟨by decide,
   c3_autostop_at_most_once.2.2 30000 [REvent.tick 29999] [REvent.tick 30000] (by decide)⟩

/-! ## Claim C8 -/

/-- Claim C8: stop is idempotent: called with no active capture (never
started) it resolves no clip and leaves the state untouched, and called a
second time after a stop that ended a session it again resolves no clip. -/
theorem c8_stop_idempotent :
    stopFn initRecorder = (none, initRecorder) ∧
    (∀ (m : Nat) (es : List REvent),
        (stopFn (runEvents m (startSuccessFn initRecorder)
            (es ++ [REvent.explicitStop]))).1 = none) := by
  constructor
  · rfl
  · intro m es
    rw [runEvents_append_one]
    have hg := runEvents_good m es (startSuccessFn initRecorder) goodState_startSuccess
    have hrec := (stopFn_spec _ hg).2.2.2.1
    exact stopFn_fst_none _ hrec

/-- Witness for claim C8 at a concrete session. -/
theorem c8_stop_idempotent_witness :
    (stopFn (runEvents 30000 (startSuccessFn initRecorder)
        ([] ++ [REvent.explicitStop]))).1 = none :=
  c8_stop_idempotent.2 30000 []

/-! ## Claim C6 -/

/-- Claim C6: a selected file of exactly 10485760 bytes (10 MiB) passes
the size gate and proceeds to submission, while any file of 10485761
bytes or more is rejected with the file-too-large error before any
network call, the controller remaining in Idle. -/
theorem c6_file_size_limit :
    handleFileChange (some 10485760) =
      { outcome := .submitted, state := .Processing, networkCalls := 1 } ∧
    (∀ n : Nat, 10485761 ≤ n →
        handleFileChange (some n) =
          { outcome := .rejectedTooLarge, state := .Idle, networkCalls := 0 }) := by
  constructor
  · rfl
  · intro n hn
    show (if 10 * 1024 * 1024 < n then
            ({ outcome := .rejectedTooLarge, state := .Idle, networkCalls := 0 } : FileChangeResult)
          else { outcome := .submitted, state := .Processing, networkCalls := 1 }) =
        { outcome := .rejectedTooLarge, state := .Idle, networkCalls := 0 }
    rw [if_pos (show 10 * 1024 * 1024 < n by omega)]

/-- Witness for claim C6 at the first rejected size. -/
theorem c6_file_size_limit_witness :
    handleFileChange (some 10485761) =
      { outcome := FileOutcome.rejectedTooLarge, state := UiState.Idle, networkCalls := 0 } :=
  c6_file_size_limit.2 10485761 (le_refl 10485761)

/-! ## Claim C7 -/

/-- Claim C7 (amended): every analyze request built from the option bundle
of the tabbed session controller carries include_contour = true, whatever
the control values; the legacy duplicate controller of web/js/ui.js does
not set the flag, so its requests carry include_contour = false. -/
theorem c7_tabbed_contour_always_true
    (saPresetValue : String) (saPresetParsed saCustomParsed : JsVal)
    (algorithmValue scriptValue : String) :
    (analyzeFormFields (getOptionsTabbed saPresetValue saPresetParsed saCustomParsed
        algorithmValue scriptValue)).include_contour = .bool true ∧
    (analyzeFileFormFields (getOptionsTabbed saPresetValue saPresetParsed saCustomParsed
        algorithmValue scriptValue)).include_contour = .bool true := by
  constructor <;> rfl

/-- Witness for the amended claim C7 at concrete control values. -/
theorem c7_tabbed_contour_always_true_witness :
    (analyzeFormFields (getOptionsTabbed "custom" .undefined (.num 440)
        "crepe" "devanagari")).include_contour = .bool true :=
  (c7_tabbed_contour_always_true "custom" .undefined (.num 440) "crepe" "devanagari").1

/-- Counterexample to claim C7 as stated: the legacy session controller
of web/js/ui.js omits the contour flag from its option bundle, and the
request the api client then submits carries include_contour = false. -/
theorem c7_legacy_contour_false :
    (analyzeFormFields (getOptionsLegacy "440" (.num 440) .undefined
        "pyin" "iast")).include_contour = .bool false ∧
    (analyzeFormFields (getOptionsLegacy "440" (.num 440) .undefined
        "pyin" "iast")).include_contour ≠ .bool true := by
  refine ⟨rfl, ?_⟩
  intro hcon
  injection hcon with hb
  exact Bool.false_ne_true hb

/-! ## Claim C10 -/

/-- A falsy option field is replaced by the supplied default. -/
theorem jsOr_of_falsy (v d : JsVal) (h : truthy v = false) : jsOr v d = d := by
  unfold jsOr
  rw [h]
  simp

/-- When the default is truthy, the or-else result is never the number 0. -/
theorem jsOr_ne_num_zero (v d : JsVal) (hd : truthy d = true) : jsOr v d ≠ .num 0 := by
  unfold jsOr
  by_cases hv : truthy v = true
  · rw [if_pos hv]
    intro hcon
    rw [hcon] at hv
    simp [truthy] at hv
  · rw [if_neg hv]
    intro hcon
    rw [hcon] at hd
    simp [truthy] at hd

/-- Claim C10: in both analyze and analyzeFile, each falsy option value
(0 for the numbers, the empty string for the strings, false or undefined
for the contour flag) is replaced by its default, and consequently the
submitted reference frequency and tolerance are never 0. -/
theorem c10_falsy_options_defaulted (o : AnalyzeOptions) :
    (truthy o.referenceSaHz = false →
        (analyzeFormFields o).reference_sa_hz = .num (26163/100) ∧
        (analyzeFileFormFields o).reference_sa_hz = .num (26163/100)) ∧
    (truthy o.toleranceCents = false →
        (analyzeFormFields o).tolerance_cents = .num 40 ∧
        (analyzeFileFormFields o).tolerance_cents = .num 40) ∧
    (truthy o.algorithm = false →
        (analyzeFormFields o).algorithm = .str "pyin" ∧
        (analyzeFileFormFields o).algorithm = .str "pyin") ∧
    (truthy o.script = false →
        (analyzeFormFields o).script = .str "iast" ∧
        (analyzeFileFormFields o).script = .str "iast") ∧
    (truthy o.includeContour = false →
        (analyzeFormFields o).include_contour = .bool false ∧
        (analyzeFileFormFields o).include_contour = .bool false) ∧
    (analyzeFormFields o).reference_sa_hz ≠ .num 0 ∧
    (analyzeFormFields o).tolerance_cents ≠ .num 0 ∧
    (analyzeFileFormFields o).reference_sa_hz ≠ .num 0 ∧
    (analyzeFileFormFields o).tolerance_cents ≠ .num 0 := by
  have hsa : truthy (JsVal.num (26163/100)) = true := by
    show decide ((26163/100 : ℚ) ≠ 0) = true
    exact decide_eq_true (by norm_num)
  have htol : truthy (JsVal.num 40) = true := by
    show decide ((40 : ℚ) ≠ 0) = true
    exact decide_eq_true (by norm_num)
  refine ⟨?_, ?_, ?_, ?_, ?_, ?_, ?_, ?_, ?_⟩
  · intro h; exact ⟨jsOr_of_falsy _ _ h, jsOr_of_falsy _ _ h⟩
  · intro h; exact ⟨jsOr_of_falsy _ _ h, jsOr_of_falsy _ _ h⟩
  · intro h; exact ⟨jsOr_of_falsy _ _ h, jsOr_of_falsy _ _ h⟩
  · intro h; exact ⟨jsOr_of_falsy _ _ h, jsOr_of_falsy _ _ h⟩
  · intro h; exact ⟨jsOr_of_falsy _ _ h, jsOr_of_falsy _ _ h⟩
  · exact jsOr_ne_num_zero _ _ hsa
  · exact jsOr_ne_num_zero _ _ htol
  · exact jsOr_ne_num_zero _ _ hsa
  · exact jsOr_ne_num_zero _ _ htol

/-- All-falsy option bundle for the witness: a tolerance of 0 cents, a
reference frequency of 0, empty strings, and an absent contour flag. -/
def allFalsyOptions : AnalyzeOptions :=
  { referenceSaHz := .num 0, algorithm := .str "", script := .str ""
    toleranceCents := .num 0, includeContour := .undefined }

/-- Witness for claim C10 at the all-falsy option bundle. -/
theorem c10_falsy_options_defaulted_witness :
    (analyzeFormFields allFalsyOptions).reference_sa_hz = .num (26163/100) ∧
    (analyzeFormFields allFalsyOptions).tolerance_cents = .num 40 ∧
    (analyzeFormFields allFalsyOptions).algorithm = .str "pyin" ∧
    (analyzeFormFields allFalsyOptions).script = .str "iast" ∧
    (analyzeFormFields allFalsyOptions).include_contour = .bool false := by
  have h := c10_falsy_options_defaulted allFalsyOptions
  have h0 : truthy (JsVal.num 0) = false := by
    show decide ((0 : ℚ) ≠ 0) = false
    exact decide_eq_false (not_not_intro rfl)
  have he : truthy (JsVal.str "") = false := by
    show decide (("" : String) ≠ "") = false
    exact decide_eq_false (not_not_intro rfl)
  exact ⟨(h.1 h0).1, (h.2.1 h0).1, (h.2.2.1 he).1, (h.2.2.2.1 he).1,
         (h.2.2.2.2.1 rfl).1⟩

/-! ## Substring lemmas for the markup injection claim (C4) -/

/-- A list is a character-prefix of itself. -/
theorem startsWithChars_refl (l : List Char) : startsWithChars l l = true := by
  induction l with
  | nil => rfl
  | cons c cs ih =>
      show (decide (c = c) && startsWithChars cs cs) = true
      rw [ih, Bool.and_true]
      exact decide_eq_true rfl

/-- Every list occurs as a substring of itself. -/
theorem hasSubChars_refl (n : List Char) : hasSubChars n n = true := by
  cases n with
  | nil => rfl
  | cons c cs =>
      show (startsWithChars (c :: cs) (c :: cs) || hasSubChars cs (c :: cs)) = true
      rw [startsWithChars_refl, Bool.true_or]

/-- Prepending characters preserves substring occurrence. -/
theorem hasSubChars_append_of (s t n : List Char) (h : hasSubChars t n = true) :
    hasSubChars (s ++ t) n = true := by
  induction s with
  | nil => simpa using h
  | cons c cs ih =>
      show (startsWithChars (c :: (cs ++ t)) n || hasSubChars (cs ++ t) n) = true
      rw [ih, Bool.or_true]

/-- A prefix match survives appending characters at the right. -/
theorem startsWithChars_extend (s t n : List Char) (h : startsWithChars s n = true) :
    startsWithChars (s ++ t) n = true := by
  induction n generalizing s with
  | nil => cases s ++ t with
      | nil => rfl
      | cons a as => rfl
  | cons m ms ih =>
      cases s with
      | nil => exact absurd h (by simp [startsWithChars])
      | cons a as =>
          rw [show startsWithChars (a :: as) (m :: ms)
              = (decide (a = m) && startsWithChars as ms) from rfl,
              Bool.and_eq_true] at h
          show (decide (a = m) && startsWithChars (as ++ t) ms) = true
          rw [h.1, ih as h.2, Bool.and_self]

/-- Appending characters at the right preserves substring occurrence. -/
theorem hasSubChars_extend_right (s t n : List Char) (h : hasSubChars s n = true) :
    hasSubChars (s ++ t) n = true := by
  induction s with
  | nil =>
      have hn : n = [] := by
        cases n with
        | nil => rfl
        | cons m ms => exact absurd h (by simp [hasSubChars, List.isEmpty])
      subst hn
      cases t with
      | nil => rfl
      | cons a as => rfl
  | cons c cs ih =>
      rw [show hasSubChars (c :: cs) n
          = (startsWithChars (c :: cs) n || hasSubChars cs n) from rfl,
          Bool.or_eq_true] at h
      show (startsWithChars (c :: (cs ++ t)) n || hasSubChars (cs ++ t) n) = true
      rcases h with h | h
      · have hx := startsWithChars_extend (c :: cs) t n h
        rw [List.cons_append] at hx
        rw [hx, Bool.true_or]
      · rw [ih h, Bool.or_true]

/-- A string occurs as a substring after any prefix. -/
theorem strHasSub_left (a n : String) : strHasSub (a ++ n) n = true := by
  show hasSubChars (a.toList ++ n.toList) n.toList = true
  exact hasSubChars_append_of _ _ _ (hasSubChars_refl _)

/-- Substring occurrence survives appending at the right. -/
theorem strHasSub_extend_right (s t n : String) (h : strHasSub s n = true) :
    strHasSub (s ++ t) n = true := by
  show hasSubChars (s.toList ++ t.toList) n.toList = true
  exact hasSubChars_extend_right _ _ _ h

/-- The raga-candidate markup contains any arohana entry verbatim: the
symbol sequence is concatenated into the innerHTML without escaping. -/
theorem ragaCandidateHtml_contains_arohana (x name num : String) (conf : ℚ)
    (av : List String) (i : Nat) :
    strHasSub (ragaCandidateHtml
      { raga_name := name, raga_number := num, confidence := conf,
        arohana := [x], avarohana := av } i) x = true := by
  simp only [ragaCandidateHtml]
  rw [show joinSpace [x] = x from rfl]
  apply strHasSub_extend_right
  apply strHasSub_extend_right
  apply strHasSub_extend_right
  exact strHasSub_left _ _

/-! ## Claim C4 -/

/-- Claim C4 is violated by the code: renderRagas concatenates the
arohana symbol sequence into the innerHTML without escaping (the raw
injected tag occurs verbatim in the markup), renderGamakas concatenates
the gamaka type label raw, and the escape the renderer owns would have
produced a different, entity-encoded string. -/
theorem c4_service_strings_not_escaped :
    strHasSub (ragaCandidateHtml
      { raga_name := "Kalyani", raga_number := "65", confidence := 9/10,
        arohana := ["<img src=x>"], avarohana := [] } 0) "<img src=x>" = true ∧
    strHasSub (gamakaItemHtml "<img src=x>" 1) "<img src=x>" = true ∧
    escHtml "<img src=x>" = "&lt;img src=x&gt;" := by
  refine ⟨ragaCandidateHtml_contains_arohana "<img src=x>" "Kalyani" "65" (9/10) [] 0, ?_, ?_⟩
  · rfl
  · rfl


/-! ## Claim C5 -/

/-- Element access into a mapped index range. -/
theorem getD_range_map (f : ℕ → ℚ) (n i : ℕ) (hi : i < n) :
    ((List.range n).map f).getD i 0 = f i := by
  rw [List.getD_eq_getElem?_getD, List.getElem?_map, List.getElem?_range hi]
  rfl

/-- The time axis always carries 7 labelled values. -/
theorem timeTickValues_length (c : List Frame) : (timeTickValues c).length = 7 := by
  unfold timeTickValues
  rw [List.length_map, List.length_range]
  rfl

/-- The frequency axis always carries 5 labelled values. -/
theorem freqTickValues_length (c : List Frame) : (freqTickValues c).length = 5 := by
  unfold freqTickValues
  rw [List.length_map, List.length_range]
  rfl

/-- Two-frame, fully voiced series for the tick-count counterexample. -/
def exC5Contour : List Frame :=
  [⟨0, 220, 9/10⟩, ⟨1000, 330, 9/10⟩]

/-- Counterexample to claim C5 as stated: a nonempty series with voiced
frames for which the time axis carries 7 labels, not 6, and the frequency
axis 5 labels, not 4 (the source loops run from 0 to nTicks inclusive). -/
theorem c5_tick_count_counterexample :
    exC5Contour ≠ [] ∧ voicedFrames exC5Contour ≠ [] ∧
    (timeTickValues exC5Contour).length = 7 ∧
    (freqTickValues exC5Contour).length = 5 ∧
    (timeTickValues exC5Contour).length ≠ 6 ∧
    (freqTickValues exC5Contour).length ≠ 4 := by
  have hv0 : isVoiced (⟨0, 220, 9/10⟩ : Frame) = true := by
    rw [isVoiced_iff]; constructor <;> norm_num
  have hv1 : isVoiced (⟨1000, 330, 9/10⟩ : Frame) = true := by
    rw [isVoiced_iff]; constructor <;> norm_num
  have hvf : voicedFrames exC5Contour = exC5Contour := by
    unfold voicedFrames exC5Contour
    rw [List.filter_cons_of_pos hv0, List.filter_cons_of_pos hv1, List.filter_nil]
  refine ⟨by simp [exC5Contour], by rw [hvf]; simp [exC5Contour], ?_, ?_, ?_, ?_⟩
  · exact timeTickValues_length _
  · exact freqTickValues_length _
  · rw [timeTickValues_length]
    omega
  · rw [freqTickValues_length]
    omega

/-- Claim C5 (amended): for every nonempty contour with a voiced frame,
the renderer draws 7 evenly spaced time tick labels (the source loop runs
i = 0 to 6 inclusive) and 5 evenly spaced frequency tick labels (i = 0 to
4 inclusive); consecutive ticks differ by one sixth of the time span and
one quarter of the frequency span respectively. -/
theorem c5_amended_axis_ticks (c : List Frame) (h1 : c ≠ []) (h2 : voicedFrames c ≠ []) :
    (timeTickValues c).length = 7 ∧ (freqTickValues c).length = 5 ∧
    (∀ i : ℕ, i < 6 →
        (timeTickValues c).getD (i+1) 0 - (timeTickValues c).getD i 0 =
          (tMaxVal c - tMinVal c) / 6) ∧
    (∀ i : ℕ, i < 4 →
        (freqTickValues c).getD (i+1) 0 - (freqTickValues c).getD i 0 =
          (fMaxVal c - fMinVal c) / 4) := by
  refine ⟨timeTickValues_length c, freqTickValues_length c, ?_, ?_⟩
  · intro i hi
    unfold timeTickValues
    have h7 : nTicks + 1 = 7 := rfl
    rw [h7]
    rw [getD_range_map _ 7 (i+1) (by omega), getD_range_map _ 7 i (by omega)]
    have hn : ((nTicks : ℕ) : ℚ) = 6 := by norm_num [nTicks]
    rw [hn]
    push_cast
    ring
  · intro i hi
    unfold freqTickValues
    have h5 : nYTicks + 1 = 5 := rfl
    rw [h5]
    rw [getD_range_map _ 5 (i+1) (by omega), getD_range_map _ 5 i (by omega)]
    have hn : ((nYTicks : ℕ) : ℚ) = 4 := by norm_num [nYTicks]
    rw [hn]
    push_cast
    ring

/-- Witness for the amended claim C5 at the concrete two-frame series. -/
theorem c5_amended_axis_ticks_witness :
    (timeTickValues exC5Contour).length = 7 ∧ (freqTickValues exC5Contour).length = 5 := by
  have hv0 : isVoiced (⟨0, 220, 9/10⟩ : Frame) = true := by
    rw [isVoiced_iff]; constructor <;> norm_num
  have hne : voicedFrames exC5Contour ≠ [] := by
    unfold voicedFrames exC5Contour
    rw [List.filter_cons_of_pos hv0]
    simp
  have h := c5_amended_axis_ticks exC5Contour (by simp [exC5Contour]) hne
  exact ⟨h.1, h.2.1⟩
